import Mathlib

/-!
Verification of the Flask Author/Book CRUD application (`src/part-4/app.py`,
`src/part-4/models.py`) against its natural-language specification.

The store is embedded shallowly: the two SQLAlchemy tables become two lists
kept in insertion order (storage order), each route handler of `app.py`
becomes a Lean function on that store, and the declared schema constraints of
`models.py` (`ForeignKey('authors.id')` on `Book.author_id`, the
`cascade='all, delete-orphan'` relationship on `Author.books`) are applied at
the point where the handler commits.  Fallible handlers return `Except`:
`notFound` models `get_or_404` / `paginate`'s abort, `missingKey k` models an
unhandled key access (`request.form['k']` / `data['k']`), and `fkViolation`
models a storage-layer foreign-key constraint failure at commit.
-/

namespace FlaskBooks

/-- A row of the `authors` table (`models.py`): autoincrement integer primary
key, required `name`, nullable `bio` and `city`. -/
structure Author where
  id : Nat
  name : String
  bio : Option String
  city : Option String
deriving Repr, DecidableEq

/-- A row of the `books` table (`models.py`): autoincrement integer primary
key, required `title`, nullable `isbn`, required `author_id` referencing
`authors.id`. -/
structure Book where
  id : Nat
  title : String
  isbn : Option String
  author_id : Nat
deriving Repr, DecidableEq

/-- The relational store: both tables, rows in storage (insertion) order. -/
structure Store where
  authors : List Author
  books : List Book
deriving Repr, DecidableEq

/-- How a handler fails: `notFound` is `get_or_404` (HTTP 404), `missingKey`
is an unhandled absent form/JSON key (Python `KeyError` class), `fkViolation`
is the storage layer rejecting a dangling `author_id` at commit, and
`orderByError` is `order_by` blowing up on a resolved attribute that is not
a column (an unhandled `AttributeError`/`ArgumentError`, framework default
500). -/
inductive ApiError where
  | notFound
  | missingKey (k : String)
  | fkViolation
  | orderByError
deriving Repr, DecidableEq

/-- The id the storage layer assigns to the next inserted row: one more than
the largest existing id (SQLite rowid assignment for an integer primary
key). -/
def nextId (ids : List Nat) : Nat := ids.foldr (fun i m => max i m) 0 + 1

def Store.nextAuthorId (s : Store) : Nat := nextId (s.authors.map (fun a => a.id))

def Store.nextBookId (s : Store) : Nat := nextId (s.books.map (fun b => b.id))

/-- `Author.query.get(id)`: first author row with the given primary key. -/
def Store.findAuthor (s : Store) (id : Nat) : Option Author :=
  s.authors.find? (fun a => a.id == id)

/-- `Book.query.get(id)`: first book row with the given primary key. -/
def Store.findBook (s : Store) (id : Nat) : Option Book :=
  s.books.find? (fun b => b.id == id)

/-- Does some author row carry this id?  This is what the declared
foreign-key constraint `ForeignKey('authors.id')` checks at commit. -/
def Store.hasAuthor (s : Store) (id : Nat) : Bool :=
  s.authors.any (fun a => a.id == id)

/-- A form-encoded body for the author routes; `none` = key absent.
`name` is read with `request.form['name']` (required), `bio` and `city` with
`request.form.get(...)` (optional). -/
structure AuthorForm where
  name : Option String
  bio : Option String
  city : Option String
deriving Repr, DecidableEq

/-- A body for the book routes; `none` = key absent.  All three keys are read
with unguarded indexing in `add_book`, `update_book` and `api_add_book`. -/
structure BookForm where
  title : Option String
  isbn : Option String
  author_id : Option Nat
deriving Repr, DecidableEq

/-- `POST /add-author` (`app.py` `add_author`): unguarded `form['name']`,
optional `form.get('bio')` / `form.get('city')`, insert, commit. -/
def add_author (s : Store) (form : AuthorForm) : Except ApiError Store :=
  match form.name with
  | none => .error (.missingKey "name")
  | some name =>
      .ok { s with authors := s.authors ++ [⟨s.nextAuthorId, name, form.bio, form.city⟩] }

/-- `POST /update-author/<id>` (`app.py` `update_author`): `get_or_404`, then
overwrite `name` (required key), `bio` and `city` (optional keys, absent ⇒
`None`), commit. -/
def update_author (s : Store) (id : Nat) (form : AuthorForm) : Except ApiError Store :=
  match s.findAuthor id with
  | none => .error .notFound
  | some _ =>
    match form.name with
    | none => .error (.missingKey "name")
    | some name =>
        .ok { s with authors :=
          s.authors.map (fun a => if a.id == id then ⟨a.id, name, form.bio, form.city⟩ else a) }

/-- `GET /delete-author/<id>` (`app.py` `delete_author`): `get_or_404`, then
delete; the `cascade='all, delete-orphan'` relationship of `models.py` also
deletes every book whose `author_id` is this author's id. -/
def delete_author (s : Store) (id : Nat) : Except ApiError Store :=
  match s.findAuthor id with
  | none => .error .notFound
  | some _ =>
      .ok { authors := s.authors.filter (fun a => a.id != id),
            books := s.books.filter (fun b => b.author_id != id) }

/-- Insert a book row, enforcing the declared foreign-key constraint of
`models.py` at commit: a dangling `author_id` is a storage-layer failure. -/
def insertBook (s : Store) (title : String) (isbn : Option String) (aid : Nat) :
    Except ApiError Store :=
  if s.hasAuthor aid then
    .ok { s with books := s.books ++ [⟨s.nextBookId, title, isbn, aid⟩] }
  else .error .fkViolation

/-- `POST /add-book` (`app.py` `add_book`): unguarded `form['title']`,
`form['isbn']`, `form['author_id']` in that order, then insert and commit. -/
def add_book (s : Store) (form : BookForm) : Except ApiError Store :=
  match form.title with
  | none => .error (.missingKey "title")
  | some title =>
    match form.isbn with
    | none => .error (.missingKey "isbn")
    | some isbn =>
      match form.author_id with
      | none => .error (.missingKey "author_id")
      | some aid => insertBook s title (some isbn) aid

/-- `POST /update-book/<id>` (`app.py` `update_book`): `get_or_404`, then
overwrite `title`, `isbn`, `author_id` — all three unguarded key accesses —
and commit, the commit enforcing the foreign-key constraint. -/
def update_book (s : Store) (id : Nat) (form : BookForm) : Except ApiError Store :=
  match s.findBook id with
  | none => .error .notFound
  | some _ =>
    match form.title with
    | none => .error (.missingKey "title")
    | some title =>
      match form.isbn with
      | none => .error (.missingKey "isbn")
      | some isbn =>
        match form.author_id with
        | none => .error (.missingKey "author_id")
        | some aid =>
          if s.hasAuthor aid then
            .ok { s with books :=
              s.books.map (fun b => if b.id == id then ⟨b.id, title, some isbn, aid⟩ else b) }
          else .error .fkViolation

/-- `GET /delete-book/<id>` (`app.py` `delete_book`): `get_or_404`, delete,
commit. -/
def delete_book (s : Store) (id : Nat) : Except ApiError Store :=
  match s.findBook id with
  | none => .error .notFound
  | some _ => .ok { s with books := s.books.filter (fun b => b.id != id) }

/-- `POST /api/add-book` (`app.py` `api_add_book`): unguarded `data['title']`,
`data['isbn']`, `data['author_id']` on the JSON body, insert, commit. -/
def api_add_book (s : Store) (data : BookForm) : Except ApiError Store :=
  match data.title with
  | none => .error (.missingKey "title")
  | some title =>
    match data.isbn with
    | none => .error (.missingKey "isbn")
    | some isbn =>
      match data.author_id with
      | none => .error (.missingKey "author_id")
      | some aid => insertBook s title (some isbn) aid

/-- The HTTP response of `POST /api/add-book`: status code and the optional
`success` flag of its JSON body.  On success Flask returns
`jsonify({"success": True})` with 200; an uncaught `KeyError` and an uncaught
commit failure both surface as the framework default 500. -/
def api_add_book_resp (s : Store) (data : BookForm) : Nat × Option Bool :=
  match api_add_book s data with
  | .ok _ => (200, some true)
  | .error .notFound => (404, none)
  | .error (.missingKey _) => (500, none)
  | .error .fkViolation => (500, none)
  | .error .orderByError => (500, none)

/-- One element of the JSON array built by `/api/books` (and reused by the
pagination and sorting routes): `{id, title, isbn, author: b.author.name}`.
The `author` field is `none` exactly when `b.author` is `None` (a dangling
foreign key), in which case the Python expression `b.author.name` raises. -/
structure BookJson where
  id : Nat
  title : String
  isbn : Option String
  author : Option String
deriving Repr, DecidableEq

/-- Serialize one book row as `/api/books` does. -/
def serializeBook (s : Store) (b : Book) : BookJson :=
  ⟨b.id, b.title, b.isbn, (s.findAuthor b.author_id).map (fun a => a.name)⟩

/-- `GET /api/books` (`app.py` `api_books`): every book row, in storage
order, serialized with its author's name. -/
def api_books (s : Store) : List BookJson :=
  s.books.map (serializeBook s)

/-- The status code of `GET /api/books`: 200, unless some book's
`b.author.name` raises `AttributeError` (dangling foreign key ⇒ framework
default 500). -/
def api_books_status (s : Store) : Nat :=
  if s.books.all (fun b => s.hasAuthor b.author_id) then 200 else 500

/-- The number of pages flask-sqlalchemy's `Pagination.pages` reports:
`ceil(total / per_page)` (0 when `total = 0`), here as the Nat ceiling
division `(total + per_page - 1) / per_page`. -/
def pagesCount (total per_page : Nat) : Nat := (total + per_page - 1) / per_page

/-- `Query.paginate(page=page, per_page=per_page)` with the default
`error_out=True`: abort 404 if `page` or `per_page` is not positive, slice
rows `(page-1)*per_page ..< page*per_page`, abort 404 if the slice is empty
and `page ≠ 1`; otherwise report `(total, pages, items)`. -/
def paginateRows (l : List Book) (page per_page : Nat) :
    Except ApiError (Nat × Nat × List Book) :=
  if page = 0 ∨ per_page = 0 then .error .notFound
  else
    let items := (l.drop ((page - 1) * per_page)).take per_page
    if items = [] ∧ page ≠ 1 then .error .notFound
    else .ok (l.length, pagesCount l.length per_page, items)

/-- The JSON body of `GET /api/books-with-pagination`. -/
structure PageJson where
  total : Nat
  pages : Nat
  books : List BookJson
deriving Repr, DecidableEq

/-- `GET /api/books-with-pagination` (`app.py` `api_books_paginated`):
`page` defaults to 1 and `per_page` to 5 (`request.args.get` with defaults),
then `Book.query.paginate` and serialization of the page items. -/
def api_books_paginated (s : Store) (page per_page : Option Nat) :
    Except ApiError PageJson :=
  let p := page.getD 1
  let pp := per_page.getD 5
  match paginateRows s.books p pp with
  | .error e => .error e
  | .ok (total, pages, items) => .ok ⟨total, pages, items.map (serializeBook s)⟩

/-- The non-column attributes visible on the `Book` class, on which
`getattr(Book, sort, Book.title)` still resolves — so no fallback happens —
but whose result is not an orderable column: the `author` relationship (the
`backref` of `Author.books` in `models.py`), `__tablename__` and `__repr__`
declared in `models.py`, and the `query`/`metadata` members every
flask-sqlalchemy model inherits.  Ordering by any of these raises, an
unhandled exception that surfaces as the framework default 500. -/
def bookNonColumnAttrs : List String :=
  ["author", "__tablename__", "__repr__", "query", "metadata"]

/-- SQL ordering on a nullable string column (SQLite: NULLs sort first in
ascending order). -/
def optStrLe : Option String → Option String → Bool
  | none, _ => true
  | some _, none => false
  | some a, some b => decide (a ≤ b)

/-- The ascending comparison of `getattr(Book, sort, Book.title).asc()`
once the non-column attributes have been ruled out (the handler raises on
those before any ordering happens): one of the four declared columns, or
the `Book.title` default when `sort` resolves to no attribute at all. -/
def columnLe (sort : String) : Book → Book → Bool :=
  if sort == "id" then fun a b => a.id ≤ b.id
  else if sort == "isbn" then fun a b => optStrLe a.isbn b.isbn
  else if sort == "author_id" then fun a b => a.author_id ≤ b.author_id
  else fun a b => decide (a.title ≤ b.title)

/-- `GET /api/books-with-sorting` (`app.py` `api_books_sorting`): `sort`
defaults to `'title'` and `order` to `'asc'`; `getattr(Book, sort,
Book.title)` resolves a non-column attribute for the names in
`bookNonColumnAttrs`, making the subsequent ordering raise (framework 500);
otherwise the column named `sort` — `Book.title` when nothing resolves — is
used, `column.desc()` exactly when `order == 'desc'` and `column.asc()` for
any other value, and the whole table is sorted and serialized like
`/api/books`. -/
def api_books_sorting (s : Store) (sort order : Option String) :
    Except ApiError (List BookJson) :=
  if sort.getD "title" ∈ bookNonColumnAttrs then .error .orderByError
  else
    .ok ((s.books.mergeSort
      (if order.getD "asc" == "desc"
        then fun a b => columnLe (sort.getD "title") b a
        else columnLe (sort.getD "title"))).map (serializeBook s))

/-- `GET /` (`app.py` `index`): the book rows handed to the template. -/
def index_books (s : Store) : List Book := s.books

/-- The books array of one pagination request, empty when the request
aborts. -/
def pageBooksOrEmpty (s : Store) (per_page page : Nat) : List BookJson :=
  match api_books_paginated s (some page) (some per_page) with
  | .ok r => r.books
  | .error _ => []

/-- The store states reachable through the application's mutating handlers,
starting from the freshly created empty schema (`db.create_all()`). -/
inductive Reachable : Store → Prop where
  | init : Reachable ⟨[], []⟩
  | addAuthor {s s' f} : Reachable s → add_author s f = .ok s' → Reachable s'
  | updateAuthor {s s' i f} : Reachable s → update_author s i f = .ok s' → Reachable s'
  | deleteAuthor {s s' i} : Reachable s → delete_author s i = .ok s' → Reachable s'
  | addBook {s s' f} : Reachable s → add_book s f = .ok s' → Reachable s'
  | updateBook {s s' i f} : Reachable s → update_book s i f = .ok s' → Reachable s'
  | deleteBook {s s' i} : Reachable s → delete_book s i = .ok s' → Reachable s'
  | apiAddBook {s s' d} : Reachable s → api_add_book s d = .ok s' → Reachable s'

/-- The referential-integrity invariant: every book's `author_id` is the id
of a live author row. -/
def FkInv (s : Store) : Prop :=
  ∀ b ∈ s.books, ∃ a ∈ s.authors, a.id = b.author_id

/-! ### Helper lemmas -/

theorem le_foldr_max (ids : List Nat) : ∀ i ∈ ids, i ≤ ids.foldr (fun i m => max i m) 0 := by
  intro i hi
  induction ids with
  | nil => cases hi
  | cons x xs ih =>
    rcases List.mem_cons.1 hi with h | h
    · subst h; exact Nat.le_max_left _ _
    · exact le_trans (ih h) (Nat.le_max_right _ _)

theorem lt_nextId {ids : List Nat} {i : Nat} (hi : i ∈ ids) : i < nextId ids := by
  have := le_foldr_max ids i hi
  unfold nextId
  omega

theorem find?_ext {α : Type} {p q : α → Bool} (l : List α) (h : ∀ x, p x = q x) :
    l.find? p = l.find? q := by
  have : p = q := funext h
  rw [this]

theorem find?_map_id_pred {g : Book → Book} (hg : ∀ b, (g b).id = b.id)
    (l : List Book) (id : Nat) :
    (l.map g).find? (fun b => b.id == id) = (l.find? (fun b => b.id == id)).map g := by
  rw [List.find?_map]
  congr 1
  apply find?_ext
  intro b
  simp [Function.comp, hg b]

theorem find?_map_author_id_pred {g : Author → Author} (hg : ∀ a, (g a).id = a.id)
    (l : List Author) (id : Nat) :
    (l.map g).find? (fun a => a.id == id) = (l.find? (fun a => a.id == id)).map g := by
  rw [List.find?_map]
  congr 1
  apply find?_ext
  intro a
  simp [Function.comp, hg a]

theorem pagesCount_zero {p : Nat} (hp : 0 < p) : pagesCount 0 p = 0 := by
  unfold pagesCount
  exact Nat.div_eq_of_lt (by omega)

theorem pagesCount_eq_succ {n p : Nat} (hp : 0 < p) (hn : 0 < n) :
    pagesCount n p = (n - 1) / p + 1 := by
  unfold pagesCount
  have h : n + p - 1 = (n - 1) + p := by omega
  rw [h, Nat.add_div_right _ hp]

theorem lt_pagesCount_iff {n p : Nat} (hp : 0 < p) (i : Nat) :
    i < pagesCount n p ↔ i * p < n := by
  rcases Nat.eq_zero_or_pos n with hn | hn
  · subst hn
    rw [pagesCount_zero hp]
    omega
  · rw [pagesCount_eq_succ hp hn, Nat.lt_succ_iff, Nat.le_div_iff_mul_le hp]
    have h : i * p ≤ n - 1 ↔ i * p < n := by omega
    exact h

theorem pagesCount_step {n p : Nat} (hp : 0 < p) (hn : 0 < n) :
    pagesCount n p = pagesCount (n - p) p + 1 := by
  rcases le_or_lt n p with h | h
  · have h1 : n - p = 0 := by omega
    rw [h1, pagesCount_zero hp, pagesCount_eq_succ hp hn, Nat.div_eq_of_lt (by omega)]
  · rw [pagesCount_eq_succ hp hn, pagesCount_eq_succ hp (by omega)]
    have h2 : n - 1 = (n - p - 1) + p := by omega
    rw [h2, Nat.add_div_right _ hp]

theorem flatten_chunks {α : Type} {p : Nat} (hp : 0 < p) (l : List α) :
    ((List.range (pagesCount l.length p)).map (fun i => (l.drop (i * p)).take p)).flatten
      = l := by
  generalize hm : pagesCount l.length p = m
  induction m generalizing l with
  | zero =>
    have h0 : l.length = 0 := by
      by_contra h
      have : 0 < pagesCount l.length p := (lt_pagesCount_iff hp 0).2 (by omega)
      omega
    rw [List.length_eq_zero.1 h0] at hm ⊢
    simp
  | succ m ih =>
    have hn : 0 < l.length := by
      by_contra h
      have h0 : l.length = 0 := by omega
      rw [h0, pagesCount_zero hp] at hm
      omega
    rw [List.range_succ_eq_map]
    simp only [List.map_cons, List.flatten_cons, List.map_map]
    have hcomp : ((fun i => (l.drop (i * p)).take p) ∘ Nat.succ)
        = fun i => (((l.drop p).drop (i * p)).take p) := by
      funext i
      simp only [Function.comp]
      rw [List.drop_drop]
      have h3 : Nat.succ i * p = p + i * p := by
        rw [Nat.succ_mul]
        omega
      rw [h3]
    rw [hcomp]
    have hlen : (l.drop p).length = l.length - p := List.length_drop p l
    have hm2 : pagesCount (l.drop p).length p = m := by
      rw [hlen]
      have := pagesCount_step hp hn (p := p)
      omega
    rw [ih (l.drop p) hm2]
    simp only [Nat.zero_mul, List.drop_zero]
    exact List.take_append_drop p l

theorem api_books_paginated_ok_inv {s : Store} {page p : Nat} {r : PageJson}
    (h : api_books_paginated s (some page) (some p) = .ok r) :
    page ≠ 0 ∧ p ≠ 0 ∧
      r = ⟨s.books.length, pagesCount s.books.length p,
           ((s.books.drop ((page - 1) * p)).take p).map (serializeBook s)⟩ := by
  unfold api_books_paginated paginateRows at h
  simp only [Option.getD] at h
  by_cases h0 : page = 0 ∨ p = 0
  · rw [if_pos h0] at h
    cases h
  · rw [if_neg h0] at h
    by_cases h1 : (s.books.drop ((page - 1) * p)).take p = [] ∧ page ≠ 1
    · rw [if_pos h1] at h
      cases h
    · rw [if_neg h1] at h
      refine ⟨fun hh => h0 (Or.inl hh), fun hh => h0 (Or.inr hh), ?_⟩
      cases h
      rfl

theorem api_books_paginated_page_ok {s : Store} {p : Nat} (hp : 0 < p) (i : Nat)
    (hi : i < pagesCount s.books.length p) :
    api_books_paginated s (some (i + 1)) (some p) =
      .ok ⟨s.books.length, pagesCount s.books.length p,
           ((s.books.drop (i * p)).take p).map (serializeBook s)⟩ := by
  have hlt : i * p < s.books.length := (lt_pagesCount_iff hp i).1 hi
  have hslice : (s.books.drop (i * p)).take p ≠ [] := by
    rw [ne_eq, List.take_eq_nil_iff]
    push_neg
    constructor
    · omega
    · rw [ne_eq, List.drop_eq_nil_iff]
      omega
  unfold api_books_paginated paginateRows
  simp only [Option.getD]
  rw [if_neg (by omega), if_neg (by
    rintro ⟨he, _⟩
    simp only [Nat.add_sub_cancel] at he
    exact hslice he)]
  simp only [Nat.add_sub_cancel]

/-- C8 (amended): for every store state holding at least one Book row and
every positive `per_page`, a request to `GET /api/books-with-pagination`
whose `page` parameter is beyond the last page fails with a NotFound-class
error rather than returning an empty page.  (The non-empty-store condition
is forced: on an empty store `page=1` is already beyond the last page —
`pages = 0` — yet the paginate helper returns an empty 200 page.) -/
theorem api_books_paginated_beyond {s : Store} {p page : Nat} (hp : 0 < p)
    (hne : s.books ≠ []) (hpage : pagesCount s.books.length p < page) :
    api_books_paginated s (some page) (some p) = .error .notFound := by
  have hn : 0 < s.books.length := List.length_pos.2 hne
  have hpages : 0 < pagesCount s.books.length p := (lt_pagesCount_iff hp 0).2 (by omega)
  have hout : ¬ (page - 1) * p < s.books.length := by
    intro hc
    have := (lt_pagesCount_iff hp (page - 1)).2 hc
    omega
  have hslice : (s.books.drop ((page - 1) * p)).take p = [] := by
    rw [List.take_eq_nil_iff]
    right
    rw [List.drop_eq_nil_iff]
    omega
  unfold api_books_paginated paginateRows
  simp only [Option.getD]
  rw [if_neg (by omega), if_pos ⟨hslice, by omega⟩]

/-! ### Preservation of the referential-integrity invariant -/

theorem fkInv_add_author {s s' : Store} {f : AuthorForm}
    (hinv : FkInv s) (h : add_author s f = .ok s') : FkInv s' := by
  unfold add_author at h
  cases hf : f.name with
  | none => rw [hf] at h; cases h
  | some name =>
    rw [hf] at h
    cases h
    intro b hb
    obtain ⟨a, ha, hid⟩ := hinv b hb
    exact ⟨a, List.mem_append_left _ ha, hid⟩

theorem fkInv_update_author {s s' : Store} {i : Nat} {f : AuthorForm}
    (hinv : FkInv s) (h : update_author s i f = .ok s') : FkInv s' := by
  unfold update_author at h
  cases hfind : s.findAuthor i with
  | none => rw [hfind] at h; cases h
  | some a0 =>
    rw [hfind] at h
    cases hf : f.name with
    | none => rw [hf] at h; cases h
    | some name =>
      rw [hf] at h
      cases h
      intro b hb
      obtain ⟨a, ha, hid⟩ := hinv b hb
      refine ⟨if a.id == i then ⟨a.id, name, f.bio, f.city⟩ else a, List.mem_map_of_mem _ ha, ?_⟩
      by_cases hcase : a.id == i
      · rw [if_pos hcase]
        exact hid
      · rw [if_neg hcase]
        exact hid

theorem fkInv_delete_author {s s' : Store} {i : Nat}
    (hinv : FkInv s) (h : delete_author s i = .ok s') : FkInv s' := by
  unfold delete_author at h
  cases hfind : s.findAuthor i with
  | none => rw [hfind] at h; cases h
  | some a0 =>
    rw [hfind] at h
    cases h
    intro b hb
    rw [List.mem_filter] at hb
    obtain ⟨hbmem, hbne⟩ := hb
    obtain ⟨a, ha, hid⟩ := hinv b hbmem
    refine ⟨a, List.mem_filter.2 ⟨ha, ?_⟩, hid⟩
    simp only [bne_iff_ne, ne_eq] at hbne ⊢
    omega

theorem fkInv_insertBook {s s' : Store} {t : String} {i : Option String} {aid : Nat}
    (hinv : FkInv s) (h : insertBook s t i aid = .ok s') : FkInv s' := by
  unfold insertBook at h
  by_cases hfk : s.hasAuthor aid
  · rw [if_pos hfk] at h
    cases h
    intro b hb
    rcases List.mem_append.1 hb with hb | hb
    · exact hinv b hb
    · obtain ⟨a, ha, haid⟩ := List.any_eq_true.1 hfk
      rcases List.mem_singleton.1 hb with rfl
      exact ⟨a, ha, by simpa using haid⟩
  · rw [if_neg hfk] at h
    cases h

theorem fkInv_add_book {s s' : Store} {f : BookForm}
    (hinv : FkInv s) (h : add_book s f = .ok s') : FkInv s' := by
  unfold add_book at h
  cases ht : f.title with
  | none => rw [ht] at h; cases h
  | some t =>
    rw [ht] at h
    cases hi : f.isbn with
    | none => rw [hi] at h; cases h
    | some i =>
      rw [hi] at h
      cases ha : f.author_id with
      | none => rw [ha] at h; cases h
      | some aid =>
        rw [ha] at h
        exact fkInv_insertBook hinv h

theorem fkInv_api_add_book {s s' : Store} {d : BookForm}
    (hinv : FkInv s) (h : api_add_book s d = .ok s') : FkInv s' := by
  unfold api_add_book at h
  cases ht : d.title with
  | none => rw [ht] at h; cases h
  | some t =>
    rw [ht] at h
    cases hi : d.isbn with
    | none => rw [hi] at h; cases h
    | some i =>
      rw [hi] at h
      cases ha : d.author_id with
      | none => rw [ha] at h; cases h
      | some aid =>
        rw [ha] at h
        exact fkInv_insertBook hinv h

theorem fkInv_update_book {s s' : Store} {i : Nat} {f : BookForm}
    (hinv : FkInv s) (h : update_book s i f = .ok s') : FkInv s' := by
  unfold update_book at h
  cases hb0 : s.findBook i with
  | none => rw [hb0] at h; cases h
  | some b0 =>
    rw [hb0] at h
    cases ht : f.title with
    | none => rw [ht] at h; cases h
    | some t =>
      rw [ht] at h
      cases hisbn : f.isbn with
      | none => rw [hisbn] at h; cases h
      | some isbn =>
        rw [hisbn] at h
        cases haid : f.author_id with
        | none => rw [haid] at h; cases h
        | some aid =>
          rw [haid] at h
          dsimp only at h
          by_cases hfk : s.hasAuthor aid
          · rw [if_pos hfk] at h
            cases h
            intro b hb
            obtain ⟨c, hc, hceq⟩ := List.mem_map.1 hb
            by_cases hcase : c.id == i
            · rw [if_pos hcase] at hceq
              obtain ⟨a, ha, haid2⟩ := List.any_eq_true.1 hfk
              subst hceq
              exact ⟨a, ha, by simpa using haid2⟩
            · rw [if_neg hcase] at hceq
              subst hceq
              exact hinv c hc
          · rw [if_neg hfk] at h
            cases h

theorem fkInv_delete_book {s s' : Store} {i : Nat}
    (hinv : FkInv s) (h : delete_book s i = .ok s') : FkInv s' := by
  unfold delete_book at h
  cases hb0 : s.findBook i with
  | none => rw [hb0] at h; cases h
  | some b0 =>
    rw [hb0] at h
    cases h
    intro b hb
    exact hinv b (List.mem_filter.1 hb).1

theorem fkInv_of_reachable {s : Store} (h : Reachable s) : FkInv s := by
  induction h with
  | init => intro b hb; cases hb
  | addAuthor _ h ih => exact fkInv_add_author ih h
  | updateAuthor _ h ih => exact fkInv_update_author ih h
  | deleteAuthor _ h ih => exact fkInv_delete_author ih h
  | addBook _ h ih => exact fkInv_add_book ih h
  | updateBook _ h ih => exact fkInv_update_book ih h
  | deleteBook _ h ih => exact fkInv_delete_book ih h
  | apiAddBook _ h ih => exact fkInv_api_add_book ih h

/-! ### Claim theorems -/

/-- C5: in every reachable store state every Book's `author_id` references a
live Author, and `POST /api/add-book` with a non-existent `author_id` fails
with the storage-layer foreign-key constraint error (surfacing as a 500, not
a structured validation error) — there is no application-level existence
check that would produce anything else. -/
theorem fk_invariant_spec :
    (∀ s, Reachable s → FkInv s) ∧
    (∀ (s : Store) (title isbn : String) (aid : Nat), s.hasAuthor aid = false →
      api_add_book s ⟨some title, some isbn, some aid⟩ = .error .fkViolation ∧
      (api_add_book_resp s ⟨some title, some isbn, some aid⟩).1 = 500) := by
  constructor
  · intro s h
    exact fkInv_of_reachable h
  · intro s title isbn aid hfk
    have h : api_add_book s ⟨some title, some isbn, some aid⟩ = .error .fkViolation := by
      unfold api_add_book insertBook
      dsimp only
      rw [if_neg (by simp [hfk])]
    refine ⟨h, ?_⟩
    unfold api_add_book_resp
    rw [h]

/-- Witness for C5: a concrete reachable two-row store satisfies the
invariant, and a concrete dangling insert fails with the constraint error. -/
theorem fk_invariant_spec_witness :
    (∃ a ∈ ([⟨1, "Ann", none, none⟩] : List Author), a.id =
        (Book.mk 1 "T" (some "I") 1).author_id) ∧
    api_add_book ⟨[], []⟩ ⟨some "T", some "I", some 9⟩ = .error .fkViolation := by
  constructor
  · have h1 : add_author ⟨[], []⟩ ⟨some "Ann", none, none⟩ =
        .ok ⟨[⟨1, "Ann", none, none⟩], []⟩ := rfl
    have h2 : add_book ⟨[⟨1, "Ann", none, none⟩], []⟩ ⟨some "T", some "I", some 1⟩ =
        .ok ⟨[⟨1, "Ann", none, none⟩], [⟨1, "T", some "I", 1⟩]⟩ := rfl
    have hreach : Reachable ⟨[⟨1, "Ann", none, none⟩], [⟨1, "T", some "I", 1⟩]⟩ :=
      Reachable.addBook (Reachable.addAuthor Reachable.init h1) h2
    exact fk_invariant_spec.1 _ hreach ⟨1, "T", some "I", 1⟩ (by decide)
  · exact (fk_invariant_spec.2 ⟨[], []⟩ "T" "I" 9 (by decide)).1

/-- C6 counterexample: a JSON body containing all of `title`, `isbn` and
`author_id` does not always insert and return success — with a dangling
`author_id` (here on the empty store) the commit fails with the foreign-key
constraint error and the framework default 500. -/
theorem api_add_book_all_keys_no_success :
    api_add_book ⟨[], []⟩ ⟨some "T", some "I", some 1⟩ = .error .fkViolation ∧
    api_add_book_resp ⟨[], []⟩ ⟨some "T", some "I", some 1⟩ = (500, none) :=
  ⟨rfl, rfl⟩

/-- C6 (amended): `POST /api/add-book` with a JSON body containing all of
`title`, `isbn` and `author_id`, the `author_id` referencing an existing
Author, inserts the new Book and returns `{"success": true}` with status
200; for every body missing any of those keys the handler fails with a
KeyError-class error that surfaces as the framework default 500, not a
structured 400. -/
theorem api_add_book_contract (s : Store) (d : BookForm) :
    (∀ title isbn aid, d = ⟨some title, some isbn, some aid⟩ →
      s.hasAuthor aid = true →
      api_add_book s d =
        .ok { s with books := s.books ++ [⟨s.nextBookId, title, some isbn, aid⟩] } ∧
      api_add_book_resp s d = (200, some true)) ∧
    ((d.title = none ∨ d.isbn = none ∨ d.author_id = none) →
      (∃ k, api_add_book s d = .error (.missingKey k)) ∧
      (api_add_book_resp s d).1 = 500 ∧ (api_add_book_resp s d).1 ≠ 400) := by
  constructor
  · rintro title isbn aid rfl hfk
    have h : api_add_book s ⟨some title, some isbn, some aid⟩ =
        .ok { s with books := s.books ++ [⟨s.nextBookId, title, some isbn, aid⟩] } := by
      unfold api_add_book insertBook
      dsimp only
      rw [if_pos hfk]
    refine ⟨h, ?_⟩
    unfold api_add_book_resp
    rw [h]
  · intro hmiss
    have h : ∃ k, api_add_book s d = .error (.missingKey k) := by
      unfold api_add_book
      cases ht : d.title with
      | none => exact ⟨"title", rfl⟩
      | some t =>
        cases hi : d.isbn with
        | none => exact ⟨"isbn", rfl⟩
        | some i =>
          cases ha : d.author_id with
          | none => exact ⟨"author_id", rfl⟩
          | some aid =>
            rcases hmiss with hm | hm | hm
            · rw [ht] at hm; cases hm
            · rw [hi] at hm; cases hm
            · rw [ha] at hm; cases hm
    obtain ⟨k, hk⟩ := h
    have hr : api_add_book_resp s d = (500, none) := by
      unfold api_add_book_resp
      rw [hk]
    exact ⟨⟨k, hk⟩, by rw [hr], by rw [hr]; decide⟩

/-- Witness for C6 (amended): a concrete successful insert and a concrete
missing-key failure. -/
theorem api_add_book_contract_witness :
    api_add_book ⟨[⟨1, "Ann", none, none⟩], []⟩ ⟨some "T", some "I", some 1⟩ =
      .ok ⟨[⟨1, "Ann", none, none⟩], [⟨1, "T", some "I", 1⟩]⟩ ∧
    (∃ k, api_add_book ⟨[], []⟩ ⟨none, some "I", some 1⟩ = .error (.missingKey k)) := by
  constructor
  · exact ((api_add_book_contract ⟨[⟨1, "Ann", none, none⟩], []⟩
      ⟨some "T", some "I", some 1⟩).1 "T" "I" 1 rfl (by decide)).1
  · exact ((api_add_book_contract ⟨[], []⟩ ⟨none, some "I", some 1⟩).2
      (Or.inl rfl)).1

/-- C7 counterexample: with the Book present and all three of `title`,
`isbn`, `author_id` supplied, the fields are not always replaced — a
dangling `author_id` makes the commit fail with the foreign-key constraint
error and nothing is overwritten. -/
theorem update_book_dangling_fk_fails :
    update_book ⟨[⟨1, "Ann", none, none⟩], [⟨1, "T", some "I", 1⟩]⟩ 1
      ⟨some "T2", some "I2", some 2⟩ = .error .fkViolation :=
  rfl

/-- C7 (amended): `POST /update-book/{id}` fails with NotFound when no Book
with that id exists; when the Book exists and the form supplies `title`,
`isbn` and `author_id`, with `author_id` referencing an existing Author, all
three fields are fully replaced with the supplied values (full overwrite);
and for every form omitting any of the three fields the request fails with
a missing-key error rather than silently retaining the old value. -/
theorem update_book_contract (s : Store) (id : Nat) (form : BookForm) :
    (s.findBook id = none → update_book s id form = .error .notFound) ∧
    (∀ b0, s.findBook id = some b0 →
      (∀ title isbn aid, form = ⟨some title, some isbn, some aid⟩ →
        s.hasAuthor aid = true →
        ∃ s', update_book s id form = .ok s' ∧
          s'.findBook id = some ⟨b0.id, title, some isbn, aid⟩ ∧
          s'.authors = s.authors) ∧
      ((form.title = none ∨ form.isbn = none ∨ form.author_id = none) →
        ∃ k, update_book s id form = .error (.missingKey k))) := by
  refine ⟨?_, ?_⟩
  · intro h
    unfold update_book
    rw [h]
  · intro b0 hb0
    constructor
    · rintro title isbn aid rfl hfk
      have hg : ∀ b : Book,
          ((fun b : Book => if b.id == id then ⟨b.id, title, some isbn, aid⟩ else b) b).id
            = b.id := by
        intro b
        dsimp only
        split <;> rfl
      refine ⟨Store.mk s.authors (s.books.map
        (fun b => if b.id == id then ⟨b.id, title, some isbn, aid⟩ else b)), ?_, ?_, rfl⟩
      · unfold update_book
        rw [hb0]
        dsimp only
        rw [if_pos hfk]
      · unfold Store.findBook at hb0 ⊢
        dsimp only
        rw [find?_map_id_pred hg, hb0]
        have hid := List.find?_some hb0
        simp only [Option.map_some']
        rw [if_pos hid]
    · intro hmiss
      unfold update_book
      rw [hb0]
      cases ht : form.title with
      | none => exact ⟨"title", rfl⟩
      | some t =>
        cases hi : form.isbn with
        | none => exact ⟨"isbn", rfl⟩
        | some i =>
          cases ha : form.author_id with
          | none => exact ⟨"author_id", rfl⟩
          | some aid =>
            rcases hmiss with hm | hm | hm
            · rw [ht] at hm; cases hm
            · rw [hi] at hm; cases hm
            · rw [ha] at hm; cases hm

/-- Witness for C7 (amended): a concrete 404, a concrete full overwrite, and
a concrete missing-field failure. -/
theorem update_book_contract_witness :
    update_book ⟨[⟨1, "Ann", none, none⟩], [⟨1, "T", some "I", 1⟩]⟩ 7
      ⟨some "T2", some "I2", some 1⟩ = .error .notFound ∧
    (∃ s', update_book ⟨[⟨1, "Ann", none, none⟩], [⟨1, "T", some "I", 1⟩]⟩ 1
        ⟨some "T2", some "I2", some 1⟩ = .ok s' ∧
      s'.findBook 1 = some ⟨1, "T2", some "I2", 1⟩ ∧
      s'.authors = [⟨1, "Ann", none, none⟩]) ∧
    (∃ k, update_book ⟨[⟨1, "Ann", none, none⟩], [⟨1, "T", some "I", 1⟩]⟩ 1
        ⟨some "T2", none, some 1⟩ = .error (.missingKey k)) := by
  refine ⟨?_, ?_, ?_⟩
  · exact (update_book_contract ⟨[⟨1, "Ann", none, none⟩], [⟨1, "T", some "I", 1⟩]⟩ 7
      ⟨some "T2", some "I2", some 1⟩).1 (by decide)
  · exact ((update_book_contract ⟨[⟨1, "Ann", none, none⟩], [⟨1, "T", some "I", 1⟩]⟩ 1
      ⟨some "T2", some "I2", some 1⟩).2 ⟨1, "T", some "I", 1⟩ (by decide)).1
      "T2" "I2" 1 rfl (by decide)
  · exact ((update_book_contract ⟨[⟨1, "Ann", none, none⟩], [⟨1, "T", some "I", 1⟩]⟩ 1
      ⟨some "T2", none, some 1⟩).2 ⟨1, "T", some "I", 1⟩ (by decide)).2
      (Or.inr (Or.inl rfl))

/-- C9: the HTML `POST /add-book` flow reads `isbn` with an unguarded key
access, so every body omitting `isbn` fails with a missing-key error even
though the `isbn` column itself is nullable (a null-isbn row inserts fine at
the storage layer); by contrast `POST /add-author` reads `bio` and `city`
with `.get`, accepting bodies omitting them and storing null. -/
theorem add_book_isbn_required (s : Store) (form : BookForm) (aform : AuthorForm) :
    (form.isbn = none → ∃ k, add_book s form = .error (.missingKey k)) ∧
    (∀ title aid, s.hasAuthor aid = true →
      insertBook s title none aid =
        .ok { s with books := s.books ++ [⟨s.nextBookId, title, none, aid⟩] }) ∧
    (∀ name, aform = ⟨some name, none, none⟩ →
      add_author s aform =
        .ok { s with authors := s.authors ++ [⟨s.nextAuthorId, name, none, none⟩] }) := by
  refine ⟨?_, ?_, ?_⟩
  · intro hmiss
    unfold add_book
    cases ht : form.title with
    | none => exact ⟨"title", rfl⟩
    | some t =>
      rw [hmiss]
      exact ⟨"isbn", rfl⟩
  · intro title aid hfk
    unfold insertBook
    rw [if_pos hfk]
  · rintro name rfl
    rfl

/-- Witness for C9: a concrete omitted-isbn failure, a concrete null-isbn
storage-layer insert, and a concrete author insert omitting `bio`/`city`. -/
theorem add_book_isbn_required_witness :
    (∃ k, add_book ⟨[⟨1, "Ann", none, none⟩], []⟩ ⟨some "T", none, some 1⟩ =
      .error (.missingKey k)) ∧
    insertBook ⟨[⟨1, "Ann", none, none⟩], []⟩ "T" none 1 =
      .ok ⟨[⟨1, "Ann", none, none⟩], [⟨1, "T", none, 1⟩]⟩ ∧
    add_author ⟨[], []⟩ ⟨some "Ann", none, none⟩ =
      .ok ⟨[⟨1, "Ann", none, none⟩], []⟩ := by
  refine ⟨?_, ?_, ?_⟩
  · exact (add_book_isbn_required ⟨[⟨1, "Ann", none, none⟩], []⟩
      ⟨some "T", none, some 1⟩ ⟨some "Ann", none, none⟩).1 rfl
  · exact (add_book_isbn_required ⟨[⟨1, "Ann", none, none⟩], []⟩
      ⟨some "T", none, some 1⟩ ⟨some "Ann", none, none⟩).2.1 "T" 1 (by decide)
  · exact (add_book_isbn_required ⟨[], []⟩
      ⟨some "T", none, some 1⟩ ⟨some "Ann", none, none⟩).2.2 "Ann" rfl

/-- C10: for every existing Author, `POST /update-author/{id}` with a form
supplying `name` but omitting `bio` and `city` succeeds and overwrites the
omitted optional fields with null — the previous `bio` and `city` are not
retained and no missing-field error is raised for them. -/
theorem update_author_optional_overwrite (s : Store) (id : Nat) (name : String)
    (a0 : Author) (h : s.findAuthor id = some a0) :
    ∃ s', update_author s id ⟨some name, none, none⟩ = .ok s' ∧
      s'.findAuthor id = some ⟨a0.id, name, none, none⟩ ∧
      s'.books = s.books := by
  have hg : ∀ a : Author,
      ((fun a : Author => if a.id == id then ⟨a.id, name, none, none⟩ else a) a).id
        = a.id := by
    intro a
    dsimp only
    split <;> rfl
  refine ⟨Store.mk (s.authors.map
    (fun a => if a.id == id then ⟨a.id, name, none, none⟩ else a)) s.books, ?_, ?_, rfl⟩
  · unfold update_author
    rw [h]
  · unfold Store.findAuthor at h ⊢
    dsimp only
    rw [find?_map_author_id_pred hg, h]
    have hid := List.find?_some h
    simp only [Option.map_some']
    rw [if_pos hid]

/-- C8 counterexample: on the empty store `page = 1` is beyond the last page
(`pages = 0`), yet the handler returns an empty page with the full count
metadata instead of failing with NotFound. -/
theorem api_books_paginated_empty_page_one_ok :
    pagesCount (Store.mk [] []).books.length 5 < 1 ∧
    api_books_paginated ⟨[], []⟩ (some 1) (some 5) = .ok ⟨0, 0, []⟩ :=
  ⟨by decide, rfl⟩

/-- Witness for C8 (amended): on a one-book store, page 2 at `per_page = 5`
is beyond the last page and aborts with NotFound. -/
theorem api_books_paginated_beyond_witness :
    api_books_paginated ⟨[⟨1, "Ann", none, none⟩], [⟨1, "T", some "I", 1⟩]⟩
      (some 2) (some 5) = .error .notFound :=
  api_books_paginated_beyond (by decide) (by decide) (by decide)

/-- Inversion of a successful `GET /api/books-with-sorting`: the body is the
whole table merge-sorted by the selected comparison, then serialized like
`/api/books`. -/
theorem api_books_sorting_ok_inv {s : Store} {sort order : Option String}
    {l : List BookJson} (h : api_books_sorting s sort order = .ok l) :
    l = (s.books.mergeSort (if order.getD "asc" == "desc"
        then fun a b => columnLe (sort.getD "title") b a
        else columnLe (sort.getD "title"))).map (serializeBook s) := by
  unfold api_books_sorting at h
  by_cases hattr : sort.getD "title" ∈ bookNonColumnAttrs
  · rw [if_pos hattr] at h
    cases h
  · rw [if_neg hattr] at h
    exact (Except.ok.inj h).symm

/-- C2: `GET /api/books-with-pagination` defaults `page` to 1 and `per_page`
to 5; every successful response reports `total` equal to the full Book row
count, `pages` equal to the ceiling of `total / per_page` (the least `m`
with `total ≤ m * per_page`), and `books` equal to the page-indexed slice;
every page index up to `pages` succeeds, and concatenating the books arrays
of all pages in order reproduces the full unsorted Book set exactly once
each. -/
theorem api_books_paginated_contract (s : Store) (p : Nat) (hp : 0 < p) :
    api_books_paginated s none none = api_books_paginated s (some 1) (some 5) ∧
    (∀ page r, api_books_paginated s (some page) (some p) = .ok r →
      r.total = s.books.length ∧
      r.pages = pagesCount s.books.length p ∧
      r.total ≤ r.pages * p ∧
      (∀ m, r.total ≤ m * p → r.pages ≤ m) ∧
      r.books = ((s.books.drop ((page - 1) * p)).take p).map (serializeBook s)) ∧
    (∀ i, i < pagesCount s.books.length p →
      api_books_paginated s (some (i + 1)) (some p) =
        .ok ⟨s.books.length, pagesCount s.books.length p,
             ((s.books.drop (i * p)).take p).map (serializeBook s)⟩) ∧
    ((List.range (pagesCount s.books.length p)).map
      (fun i => pageBooksOrEmpty s p (i + 1))).flatten = api_books s := by
  have hceil : s.books.length ≤ pagesCount s.books.length p * p := by
    by_contra hc
    push_neg at hc
    have := (lt_pagesCount_iff hp (pagesCount s.books.length p)).2 hc
    omega
  refine ⟨rfl, ?_, ?_, ?_⟩
  · intro page r h
    obtain ⟨hpage, hpp, hr⟩ := api_books_paginated_ok_inv h
    subst hr
    refine ⟨rfl, rfl, hceil, ?_, rfl⟩
    dsimp only
    intro m hm
    by_contra hc
    push_neg at hc
    have := (lt_pagesCount_iff hp m).1 hc
    omega
  · intro i hi
    exact api_books_paginated_page_ok hp i hi
  · have hmap : ∀ i ∈ List.range (pagesCount s.books.length p),
        pageBooksOrEmpty s p (i + 1)
          = ((s.books.drop (i * p)).take p).map (serializeBook s) := by
      intro i hi
      rw [List.mem_range] at hi
      unfold pageBooksOrEmpty
      rw [api_books_paginated_page_ok hp i hi]
    rw [List.map_congr_left hmap]
    have h1 : ((List.range (pagesCount s.books.length p)).map
        (fun i => ((s.books.drop (i * p)).take p).map (serializeBook s))).flatten
        = ((((List.range (pagesCount s.books.length p)).map
            (fun i => (s.books.drop (i * p)).take p)).flatten).map (serializeBook s)) := by
      rw [List.map_flatten, List.map_map]
      rfl
    rw [h1, flatten_chunks hp]
    rfl

/-- Witness for C2: on a concrete three-book store with `per_page = 2` the
two pages concatenate back to the full `/api/books` array. -/
theorem api_books_paginated_contract_witness :
    ((List.range (pagesCount
        (Store.mk [⟨1, "Ann", none, none⟩]
          [⟨1, "B", none, 1⟩, ⟨2, "A", none, 1⟩, ⟨3, "C", none, 1⟩]).books.length 2)).map
      (fun i => pageBooksOrEmpty
        ⟨[⟨1, "Ann", none, none⟩], [⟨1, "B", none, 1⟩, ⟨2, "A", none, 1⟩, ⟨3, "C", none, 1⟩]⟩
        2 (i + 1))).flatten
    = api_books ⟨[⟨1, "Ann", none, none⟩],
        [⟨1, "B", none, 1⟩, ⟨2, "A", none, 1⟩, ⟨3, "C", none, 1⟩]⟩ :=
  (api_books_paginated_contract
    ⟨[⟨1, "Ann", none, none⟩], [⟨1, "B", none, 1⟩, ⟨2, "A", none, 1⟩, ⟨3, "C", none, 1⟩]⟩
    2 (by decide)).2.2.2

/-- C4: `GET /api/books` returns status 200 and, for every Book in the
store, an object `{id, title, isbn, author}` whose `author` field is the
owning Author's name; in particular, after creating an Author and then a
Book referencing it, the array includes the new Book with `author` equal to
that Author's name. -/
theorem api_books_contract (s : Store)
    (hinv : ∀ b ∈ s.books, s.hasAuthor b.author_id = true) :
    api_books_status s = 200 ∧
    (∀ b ∈ s.books, ∃ a, s.findAuthor b.author_id = some a ∧
      (⟨b.id, b.title, b.isbn, some a.name⟩ : BookJson) ∈ api_books s) ∧
    (∀ name bio city title isbn s1,
      add_author s ⟨some name, bio, city⟩ = .ok s1 →
      ∀ s2, api_add_book s1 ⟨some title, some isbn, some s.nextAuthorId⟩ = .ok s2 →
        (⟨s1.nextBookId, title, some isbn, some name⟩ : BookJson) ∈ api_books s2) := by
  refine ⟨?_, ?_, ?_⟩
  · unfold api_books_status
    rw [if_pos (List.all_eq_true.2 hinv)]
  · intro b hb
    have hsome : (s.authors.find? (fun a => a.id == b.author_id)).isSome = true := by
      rw [List.find?_isSome]
      exact List.any_eq_true.1 (hinv b hb)
    obtain ⟨a, ha⟩ := Option.isSome_iff_exists.1 hsome
    refine ⟨a, ha, ?_⟩
    have hser : serializeBook s b = ⟨b.id, b.title, b.isbn, some a.name⟩ := by
      unfold serializeBook Store.findAuthor
      rw [ha]
      rfl
    rw [← hser]
    exact List.mem_map_of_mem (serializeBook s) hb
  · rintro name bio city title isbn s1 h1 s2 h2
    unfold add_author at h1
    dsimp only at h1
    cases h1
    unfold api_add_book at h2
    dsimp only at h2
    unfold insertBook at h2
    have hfk : Store.hasAuthor
        { s with authors := s.authors ++ [⟨s.nextAuthorId, name, bio, city⟩] }
        s.nextAuthorId = true := by
      unfold Store.hasAuthor
      dsimp only
      rw [List.any_eq_true]
      exact ⟨⟨s.nextAuthorId, name, bio, city⟩,
        List.mem_append_right _ (List.mem_singleton_self _), by simp⟩
    rw [if_pos hfk] at h2
    cases h2
    have hfresh : ∀ a ∈ s.authors, (a.id == s.nextAuthorId) = false := by
      intro a ha
      have hlt : a.id < s.nextAuthorId :=
        lt_nextId (List.mem_map_of_mem (fun a => a.id) ha)
      simp only [beq_eq_false_iff_ne, ne_eq]
      omega
    have hfind : Store.findAuthor
        { s with authors := s.authors ++ [⟨s.nextAuthorId, name, bio, city⟩] }
        s.nextAuthorId = some ⟨s.nextAuthorId, name, bio, city⟩ := by
      unfold Store.findAuthor
      dsimp only
      rw [List.find?_append]
      have hnone : s.authors.find? (fun a => a.id == s.nextAuthorId) = none :=
        List.find?_eq_none.2 (fun a ha => by rw [hfresh a ha]; exact Bool.false_ne_true)
      rw [hnone]
      simp [List.find?]
    set s1 : Store := { s with authors := s.authors ++ [⟨s.nextAuthorId, name, bio, city⟩] }
    have hser : serializeBook
        { s1 with books := s1.books ++ [⟨s1.nextBookId, title, some isbn, s.nextAuthorId⟩] }
        ⟨s1.nextBookId, title, some isbn, s.nextAuthorId⟩
        = ⟨s1.nextBookId, title, some isbn, some name⟩ := by
      unfold serializeBook
      dsimp only
      have hfind2 : Store.findAuthor
          { s1 with books := s1.books ++ [⟨s1.nextBookId, title, some isbn, s.nextAuthorId⟩] }
          s.nextAuthorId = some ⟨s.nextAuthorId, name, bio, city⟩ := hfind
      rw [hfind2]
      rfl
    rw [← hser]
    exact List.mem_map_of_mem _
      (List.mem_append_right _ (List.mem_singleton_self _))

/-- Witness for C4: the create-author-then-create-book scenario on the empty
store ends with `/api/books` listing the new Book with its Author's name. -/
theorem api_books_contract_witness :
    (⟨1, "T", some "I", some "Ann"⟩ : BookJson) ∈
      api_books ⟨[⟨1, "Ann", none, none⟩], [⟨1, "T", some "I", 1⟩]⟩ :=
  (api_books_contract ⟨[], []⟩ (by decide)).2.2 "Ann" none none "T" "I"
    ⟨[⟨1, "Ann", none, none⟩], []⟩ rfl
    ⟨[⟨1, "Ann", none, none⟩], [⟨1, "T", some "I", 1⟩]⟩ rfl

/-- C1: for every Author in the store (with book primary keys unique, as in
every reachable state), the delete-author operation on that Author's id
succeeds and removes the Author together with every Book whose `author_id`
equals that id; afterwards none of the dependent Book ids are retrievable by
any read operation (get-by-id, `/api/books`, `/api/books-with-sorting`,
`/api/books-with-pagination`, or the index listing). -/
theorem delete_author_cascade_spec (s : Store) (aid : Nat)
    (hmem : ∃ a ∈ s.authors, a.id = aid)
    (hnodup : (s.books.map (fun b => b.id)).Nodup) :
    ∃ s', delete_author s aid = .ok s' ∧
      (∀ a ∈ s'.authors, a.id ≠ aid) ∧
      (∀ b ∈ s'.books, b.author_id ≠ aid) ∧
      (∀ b ∈ s.books, b.author_id = aid →
        s'.findBook b.id = none ∧
        b.id ∉ (api_books s').map (fun j => j.id) ∧
        (∀ sort ord l, api_books_sorting s' sort ord = .ok l →
          b.id ∉ l.map (fun j => j.id)) ∧
        (∀ pp page, b.id ∉ (pageBooksOrEmpty s' pp page).map (fun j => j.id)) ∧
        b.id ∉ (index_books s').map (fun c => c.id)) := by
  obtain ⟨a0, ha0, ha0id⟩ := hmem
  have hsome : (s.authors.find? (fun a => a.id == aid)).isSome = true := by
    rw [List.find?_isSome]
    exact ⟨a0, ha0, by simp [ha0id]⟩
  obtain ⟨x, hx⟩ := Option.isSome_iff_exists.1 hsome
  refine ⟨⟨s.authors.filter (fun a => a.id != aid),
           s.books.filter (fun b => b.author_id != aid)⟩, ?_, ?_, ?_, ?_⟩
  · unfold delete_author Store.findAuthor
    rw [hx]
  · intro a ha
    have := (List.mem_filter.1 ha).2
    simpa using this
  · intro b hb
    have := (List.mem_filter.1 hb).2
    simpa using this
  · intro b hb hbaid
    have hkey : ∀ c ∈ s.books.filter (fun c => c.author_id != aid), c.id ≠ b.id := by
      intro c hc heq
      rw [List.mem_filter] at hc
      obtain ⟨hcmem, hcne⟩ := hc
      have hcb : c = b := List.inj_on_of_nodup_map hnodup hcmem hb heq
      subst hcb
      rw [hbaid] at hcne
      simp at hcne
    have hid_not : ∀ l : List Book, (∀ c ∈ l, c.id ≠ b.id) →
        b.id ∉ l.map (fun c => c.id) := by
      intro l hl hmem2
      obtain ⟨c, hc, hceq⟩ := List.mem_map.1 hmem2
      exact hl c hc hceq
    have hser_ids : ∀ (l : List Book) (t : Store),
        (l.map (serializeBook t)).map (fun j => j.id) = l.map (fun c => c.id) := by
      intro l t
      rw [List.map_map]
      rfl
    refine ⟨?_, ?_, ?_, ?_, ?_⟩
    · unfold Store.findBook
      dsimp only
      refine List.find?_eq_none.2 (fun c hc => ?_)
      have := hkey c hc
      simpa using this
    · unfold api_books
      dsimp only
      rw [hser_ids]
      exact hid_not _ hkey
    · intro sort ord l hok
      rw [api_books_sorting_ok_inv hok]
      dsimp only
      rw [hser_ids]
      intro hmem2
      obtain ⟨c, hc, hceq⟩ := List.mem_map.1 hmem2
      have hcmem : c ∈ s.books.filter (fun c => c.author_id != aid) :=
        (List.mergeSort_perm _ _).mem_iff.1 hc
      exact hkey c hcmem hceq
    · intro pp page
      unfold pageBooksOrEmpty
      cases hres : api_books_paginated
          ⟨s.authors.filter (fun a => a.id != aid),
           s.books.filter (fun c => c.author_id != aid)⟩ (some page) (some pp) with
      | error e => simp
      | ok r =>
        obtain ⟨_, _, hr⟩ := api_books_paginated_ok_inv hres
        subst hr
        dsimp only
        rw [hser_ids]
        intro hmem2
        obtain ⟨c, hc, hceq⟩ := List.mem_map.1 hmem2
        have hcmem : c ∈ s.books.filter (fun c => c.author_id != aid) :=
          List.mem_of_mem_drop (List.mem_of_mem_take hc)
        exact hkey c hcmem hceq
    · unfold index_books
      dsimp only
      exact hid_not _ hkey

/-- Witness for C1: deleting the only author of a concrete one-author,
one-book store removes the author and cascades to the book. -/
theorem delete_author_cascade_spec_witness :
    ∃ s', delete_author ⟨[⟨1, "Ann", none, none⟩], [⟨1, "T", some "I", 1⟩]⟩ 1 = .ok s' ∧
      (∀ a ∈ s'.authors, a.id ≠ 1) ∧ (∀ b ∈ s'.books, b.author_id ≠ 1) := by
  obtain ⟨s', h1, h2, h3, _⟩ := delete_author_cascade_spec
    ⟨[⟨1, "Ann", none, none⟩], [⟨1, "T", some "I", 1⟩]⟩ 1 (by decide) (by decide)
  exact ⟨s', h1, h2, h3⟩

/-- Witness for C10: updating a concrete author that has both `bio` and
`city` set, with a form omitting both, nulls them. -/
theorem update_author_optional_overwrite_witness :
    ∃ s', update_author ⟨[⟨1, "Ann", some "a bio", some "Pune"⟩], []⟩ 1
        ⟨some "Bea", none, none⟩ = .ok s' ∧
      s'.findAuthor 1 = some ⟨1, "Bea", none, none⟩ ∧
      s'.books = [] :=
  update_author_optional_overwrite ⟨[⟨1, "Ann", some "a bio", some "Pune"⟩], []⟩ 1
    "Bea" ⟨1, "Ann", some "a bio", some "Pune"⟩ (by decide)

end FlaskBooks
